import Mathlib

set_option maxRecDepth 40000

/-!
Shallow embedding of the resume-analysis engine of
`src/util/RsumeScan.js` (lunarenterprises/CvBackend).

JavaScript strings are modelled as lists of Unicode code points (`Str`),
JS arrays as `List`, JS `Set`/`Map` as insertion-ordered association
structures, a `throw`/rejected promise as `Except.error`, and a JS
`undefined` return as `Option.none`.
-/

/-- A JavaScript string, as its sequence of Unicode code points. -/
abbrev Str := List Char

/-- JS `String.prototype.startsWith`: first argument the string, second
the candidate leading segment. -/
def jsStartsWith : Str → Str → Bool
  | _, [] => true
  | [], _ :: _ => false
  | c :: cs, p :: ps => c == p && jsStartsWith cs ps

/-! ## Scorer (`calculateScore`, lines 151–165) -/

/-- The `deductions` object of `calculateScore`, with its keys in
insertion order: 🔴 15, ⚠️ 10, 🟠 7, 🟡 5.  (The ⚠️ icon is the two code
points U+26A0 U+FE0F.) -/
def deductions : List (Str × Int) :=
  [(['🔴'], 15), (['⚠', '\uFE0F'], 10), (['🟠'], 7), (['🟡'], 5)]

/-- `calculateScore(results)`: start from 100; for every result and every
key of `deductions`, subtract the weight when the result starts with that
key; finally `Math.max(0, score)`. -/
def calculateScore (results : List Str) : Int :=
  let score := results.foldl
    (fun score r =>
      deductions.foldl
        (fun score p => if jsStartsWith r p.1 then score - p.2 else score)
        score)
    100
  max 0 score

/-- The spec's §4.4 weight of a feedback item's leading tag
(🔴 15, ⚠️ 10, 🟠 7, 🟡 5; anything else, including 🟢 ✅ ❌, weighs 0). -/
def tagWeight (r : Str) : Int :=
  if jsStartsWith r ['🔴'] then 15
  else if jsStartsWith r ['⚠', '\uFE0F'] then 10
  else if jsStartsWith r ['🟠'] then 7
  else if jsStartsWith r ['🟡'] then 5
  else 0

theorem jsStartsWith_head {r : Str} {p : Char} {ps : Str}
    (h : jsStartsWith r (p :: ps) = true) : r.head? = some p := by
  cases r with
  | nil => simp [jsStartsWith] at h
  | cons c cs =>
    simp only [jsStartsWith, Bool.and_eq_true, beq_iff_eq] at h
    simp [h.1]

theorem jsStartsWith_of_ne_head {r : Str} {a b : Char} {ps qs : Str}
    (hne : b ≠ a) (h : jsStartsWith r (a :: ps) = true) :
    jsStartsWith r (b :: qs) = false := by
  cases r with
  | nil => rfl
  | cons c cs =>
    have hc : c = a := by
      have := jsStartsWith_head h
      simpa using this
    have hab : (a == b) = false :=
      beq_eq_false_iff_ne.mpr (fun heq => hne heq.symm)
    simp [jsStartsWith, hc, hab]

theorem tagWeight_nonneg (r : Str) : 0 ≤ tagWeight r := by
  unfold tagWeight
  split <;> try norm_num
  split <;> try norm_num
  split <;> try norm_num
  split <;> norm_num

theorem inner_deduction (score : Int) (r : Str) :
    deductions.foldl
        (fun score p => if jsStartsWith r p.1 then score - p.2 else score)
        score
      = score - tagWeight r := by
  simp only [deductions, List.foldl, tagWeight]
  by_cases h1 : jsStartsWith r ['🔴'] = true
  · rw [jsStartsWith_of_ne_head (by decide) h1,
      jsStartsWith_of_ne_head (by decide) h1,
      jsStartsWith_of_ne_head (by decide) h1]
    simp [h1]
  · by_cases h2 : jsStartsWith r ['⚠', '\uFE0F'] = true
    · rw [jsStartsWith_of_ne_head (by decide) h2,
        jsStartsWith_of_ne_head (by decide) h2]
      simp [h1, h2]
    · by_cases h3 : jsStartsWith r ['🟠'] = true
      · rw [jsStartsWith_of_ne_head (by decide) h3]
        simp [h1, h2, h3]
      · by_cases h4 : jsStartsWith r ['🟡'] = true
        · simp [h1, h2, h3, h4]
        · simp [h1, h2, h3, h4]

theorem score_foldl_eq (results : List Str) (a : Int) :
    results.foldl
        (fun score r =>
          deductions.foldl
            (fun score p => if jsStartsWith r p.1 then score - p.2 else score)
            score)
        a
      = a - ((results.map tagWeight).sum) := by
  induction results generalizing a with
  | nil => simp
  | cons r rest ih =>
    rw [List.foldl_cons, inner_deduction, ih, List.map_cons, List.sum_cons]
    ring

/-- C1: `calculateScore` returns `max(0, 100 − Σ tagWeight(item))` with the
§4.4 weight table (each item deducting exactly its own leading tag's weight,
at most once); the empty sequence scores 100, and the result is always in
the closed range `[0, 100]`. -/
theorem calculateScore_spec (results : List Str) :
    calculateScore results = max 0 (100 - ((results.map tagWeight).sum))
      ∧ calculateScore [] = 100
      ∧ 0 ≤ calculateScore results
      ∧ calculateScore results ≤ 100 := by
  have hmain : ∀ rs : List Str,
      calculateScore rs = max 0 (100 - ((rs.map tagWeight).sum)) := by
    intro rs
    unfold calculateScore
    rw [score_foldl_eq]
  have hsum : ∀ rs : List Str, 0 ≤ (rs.map tagWeight).sum := by
    intro rs
    induction rs with
    | nil => simp
    | cons r rest ih =>
      simp only [List.map, List.sum_cons]
      have := tagWeight_nonneg r
      omega
  refine ⟨hmain results, by simp [hmain []], ?_, ?_⟩
  · rw [hmain results]; exact le_max_left 0 _
  · rw [hmain results]
    have := hsum results
    omega

/-! ## JS string helpers -/

/-- The characters matched by the JS regex class `\s`
(ECMAScript WhiteSpace ∪ LineTerminator). -/
def jsWhitespaceChar (c : Char) : Bool :=
  c == ' ' || c == '\t' || c == '\n' || c == '\r' || c == '\u000B' ||
  c == '\u000C' || c == ' ' || c == ' ' ||
  (decide (' ' ≤ c) && decide (c ≤ ' ')) || c == ' ' ||
  c == ' ' || c == ' ' || c == ' ' || c == '　' ||
  c == '﻿'

/-- JS `String.prototype.split` against a single-character class: every
occurrence of a matching character cuts, and empty segments are kept
(`"".split` gives `[""]`, a trailing separator yields a trailing `""`). -/
def splitOnP (p : Char → Bool) : Str → List Str
  | [] => [[]]
  | c :: rest =>
    match splitOnP p rest with
    | [] => [[]]
    | s :: ss => if p c then [] :: s :: ss else (c :: s) :: ss

/-- JS `String.prototype.trim`. -/
def jsTrim (s : Str) : Str :=
  ((s.dropWhile jsWhitespaceChar).reverse.dropWhile jsWhitespaceChar).reverse

def isAsciiDigit (c : Char) : Bool := decide ('0' ≤ c) && decide (c ≤ '9')

def isAsciiUpper (c : Char) : Bool := decide ('A' ≤ c) && decide (c ≤ 'Z')

def isAsciiLower (c : Char) : Bool := decide ('a' ≤ c) && decide (c ≤ 'z')

def isAsciiLetter (c : Char) : Bool := isAsciiUpper c || isAsciiLower c

/-- Lowering of ASCII uppercase letters.  On the engine's patterns (all
ASCII) this is exactly JS `toLowerCase` / the regex `i` flag. -/
def asciiLower (c : Char) : Char :=
  if isAsciiUpper c then Char.ofNat (c.toNat + 32) else c

/-- Decimal digits of a natural number, as a JS string. -/
def natToStr (n : Nat) : Str := (Nat.repr n).data

/-- All decompositions `s = pre ++ suf`, in order of growing `pre`;
used to give regex `test` its existential matching semantics. -/
def splits : Str → List (Str × Str)
  | [] => [([], [])]
  | c :: rest => ([], c :: rest) :: (splits rest).map (fun p => (c :: p.1, p.2))

/-- Substring test: does the second string contain the first as a
contiguous run?  (JS `indexOf(...) !== -1` / a literal regex `test`.) -/
def containsSeq (pat : Str) : Str → Bool
  | [] => pat.isEmpty
  | c :: rest => jsStartsWith (c :: rest) pat || containsSeq pat rest

/-! ## `checkBulletPoints` (lines 16–29) -/

/-- The bullet glyphs of the class `[-•▪*]`. -/
def isBulletChar (c : Char) : Bool := c == '-' || c == '•' || c == '▪' || c == '*'

/-- JS `text.split("\n\n")`: non-overlapping left-to-right cuts at each
occurrence of two consecutive newlines. -/
def splitOnNN : Str → List Str
  | '\n' :: '\n' :: rest => [] :: splitOnNN rest
  | c :: rest =>
    match splitOnNN rest with
    | [] => [[c]]
    | s :: ss => (c :: s) :: ss
  | [] => [[]]

/-- `(sec.match(/^[-•▪*]/gm) || []).length`: the number of lines of the
section whose first character is a bullet glyph. -/
def bulletLineCount (sec : Str) : Nat :=
  ((splitOnP (· == '\n') sec).filter
    (fun l => match l with | [] => false | c :: _ => isBulletChar c)).length

def bulletSecMsg (i : Nat) : Str :=
  "🟠 Section ".data ++ natToStr (i + 1) ++
    " has long paragraphs — use concise bullet points.".data

def checkBulletPoints (text : Str) : List Str :=
  ((splitOnNN text).enum.filter
      (fun p => decide (5 < p.2.countP (· == '.')) && decide (bulletLineCount p.2 = 0))).map
    (fun p => bulletSecMsg p.1)

/-! ## `checkProjects` (lines 31–35) -/

def projMsg : Str :=
  "🟡 Add a 'Projects' section to showcase your hands-on experience.".data

/-- `/project/i.test(text)`: some substring equals `"project"` up to ASCII
case. -/
def testProject (text : Str) : Bool :=
  containsSeq "project".data (text.map asciiLower)

def checkProjects (text : Str) : List Str :=
  if !testProject text then [projMsg] else []

/-! ## `checkContactFormatting` (lines 37–44) -/

/-- `[A-Z0-9._%+-]` under the `i` flag. -/
def emailLocalChar (c : Char) : Bool :=
  isAsciiLetter c || isAsciiDigit c || c == '.' || c == '_' || c == '%' ||
  c == '+' || c == '-'

/-- `[A-Z0-9.-]` under the `i` flag. -/
def emailDomainChar (c : Char) : Bool :=
  isAsciiLetter c || isAsciiDigit c || c == '.' || c == '-'

/-- A regex word character (`\w`), for `\b`. -/
def wordChar (c : Char) : Bool := isAsciiLetter c || isAsciiDigit c || c == '_'

/-- `\b` between an optional left and right character (string edges count
as non-word): word-ness must change. -/
def atBoundary (l r : Option Char) : Bool :=
  (match l with | none => false | some c => wordChar c) !=
    (match r with | none => false | some c => wordChar c)

/-- `/\b[A-Z0-9._%+-]+@[A-Z0-9.-]+\.[A-Z]{2,}\b/i.test(text)`: some
decomposition of the text matches the pattern, with both `\b` assertions
satisfied. -/
def emailTest (text : Str) : Bool :=
  (splits text).any fun pr =>
    (splits pr.2).any fun lo =>
      !lo.1.isEmpty && lo.1.all emailLocalChar &&
      atBoundary pr.1.getLast? lo.1.head? &&
      (match lo.2 with
       | '@' :: rest2 =>
         (splits rest2).any fun dm =>
           !dm.1.isEmpty && dm.1.all emailDomainChar &&
           (match dm.2 with
            | '.' :: rest3 =>
              (splits rest3).any fun tl =>
                decide (2 ≤ tl.1.length) && tl.1.all isAsciiLetter &&
                atBoundary tl.1.getLast? tl.2.head?
            | _ => false)
       | _ => false)

/-- `[-.\s]`. -/
def phoneSep (c : Char) : Bool := c == '-' || c == '.' || jsWhitespaceChar c

/-- `\d{1,3}[-.\s]?` consuming exactly the given characters. -/
def digitsThenSep (g : Str) : Bool :=
  (splits g).any fun dg =>
    decide (1 ≤ dg.1.length) && decide (dg.1.length ≤ 3) &&
    dg.1.all isAsciiDigit &&
    (dg.2.isEmpty || (match dg.2 with | [c] => phoneSep c | _ => false))

/-- `\+?\d{1,3}[-.\s]?` consuming exactly the given characters (a leading
`+`, being outside `\d`, is consumed by `\+?` when present). -/
def phoneGroup (g : Str) : Bool :=
  match g with
  | '+' :: rest => digitsThenSep rest
  | _ => digitsThenSep g

/-- `/(\+?\d{1,3}[-.\s]?)?\d{10}/.test(text)`: some decomposition has an
optional country-code group followed by ten consecutive digits. -/
def phoneTest (text : Str) : Bool :=
  (splits text).any fun pr =>
    (splits pr.2).any fun gp =>
      (gp.1.isEmpty || phoneGroup gp.1) &&
      decide ((gp.2.take 10).length = 10) && (gp.2.take 10).all isAsciiDigit

def contactMsg : Str :=
  "🔴 Missing proper contact information (email/phone).".data

def checkContactFormatting (text : Str) : List Str :=
  if !emailTest text || !phoneTest text then [contactMsg] else []

/-! ## `checkHeadings` (lines 46–55) -/

/-- `[A-Za-z\s]`. -/
def headingClassChar (c : Char) : Bool := isAsciiLetter c || jsWhitespaceChar c

/-- Whether the character at offset `m` of `l` satisfies the lookahead
`(?=\n|:)`. -/
def lookaheadOk (l : Str) (m : Nat) : Bool :=
  match l.drop m with
  | c :: _ => c == '\n' || c == ':'
  | [] => false

/-- Greedy length of `[A-Za-z\s]+` (over the characters after the leading
capital) whose following character satisfies `(?=\n|:)`; backtracks from
the maximal run. -/
def headingRun (l : Str) : Option Nat :=
  let R := (l.takeWhile headingClassChar).length
  (List.range (R + 1)).reverse.findSome?
    (fun m => if 1 ≤ m && lookaheadOk l m then some m else none)

/-- Scanner body for `headingScan`, with a step budget so the recursion is
structural (every step consumes at least one character, so a budget of the
string's length is enough). -/
def headingScanAux : Nat → Bool → Str → List Str
  | 0, _, _ => []
  | _, _, [] => []
  | fuel + 1, atStart, c :: rest =>
    if atStart && isAsciiUpper c then
      match headingRun rest with
      | some m =>
        (c :: rest.take m) ::
          headingScanAux fuel (decide ((c :: rest.take m).getLast? = some '\n'))
            (rest.drop m)
      | none => headingScanAux fuel (c == '\n') rest
    else headingScanAux fuel (c == '\n') rest

/-- `text.match(/^[A-Z][A-Za-z\s]+(?=\n|:)/gm) || []`: scan left to right;
at each line start try the pattern; a match is consumed up to (not
including) the lookahead character, and scanning resumes there. -/
def headingScan (atStart : Bool) (s : Str) : List Str :=
  headingScanAux s.length atStart s

def headingMsg (h th : Str) : Str :=
  "🟡 Heading \"".data ++ h ++ "\" should be \"".data ++ th ++
    "\" for consistency.".data

/-- `checkHeadings`, with the external `title-case` package's `titleCase`
function abstracted as a parameter. -/
def checkHeadings (titleCase : Str → Str) (text : Str) : List Str :=
  ((headingScan true text).filter (fun h => decide (¬ h = titleCase h))).map
    (fun h => headingMsg h (titleCase h))

/-! ## `checkAchievements` (lines 57–65) -/

def achieveMsg : Str :=
  "🟢 Quantify achievements — add measurable results like \"Improved efficiency by 20%\".".data

/-- `/experience|achievement|project|work/i.test(line)`. -/
def testExperienceWords (line : Str) : Bool :=
  let low := line.map asciiLower
  containsSeq "experience".data low || containsSeq "achievement".data low ||
  containsSeq "project".data low || containsSeq "work".data low

/-- `/\d+%|\d+\+/.test(line)`: the pattern matches somewhere iff some digit
is immediately followed by `%` or `+` (the `\d+` loop can always shrink to
its last digit). -/
def hasQuantifier : Str → Bool
  | c1 :: c2 :: rest =>
    (isAsciiDigit c1 && (c2 == '%' || c2 == '+')) || hasQuantifier (c2 :: rest)
  | _ => false

def checkAchievements (text : Str) : List Str :=
  ((splitOnP (· == '\n') text).filter
      (fun line => testExperienceWords line && !hasQuantifier line)).map
    (fun _ => achieveMsg)

/-! ## `checkFileCompatibility` (lines 67–71) -/

def fileCompatMsg : Str :=
  "🔴 File may be image-based (no readable text). Use text-based PDF or DOCX.".data

def checkFileCompatibility (text : Str) : List Str :=
  if text.length < 200 then [fileCompatMsg] else []

/-! ## `checkGrammarHeuristics` (lines 80–95) -/

def isSentencePunct (c : Char) : Bool := c == '.' || c == '!' || c == '?'

/-- `text.split(/[.!?]/).filter(s => s.trim().length > 0)`. -/
def sentencesOf (text : Str) : List Str :=
  (splitOnP isSentencePunct text).filter (fun s => decide (0 < (jsTrim s).length))

/-- `sentences.filter(s => s.split(" ").length > 25).length`: note the
split is on the single space character and counts empty segments. -/
def longSentenceCount (text : Str) : Nat :=
  ((sentencesOf text).filter
    (fun s => decide (25 < (splitOnP (· == ' ') s).length))).length

/-- `/^[a-z]/.test(s.trim())`. -/
def startsLowerAscii (s : Str) : Bool :=
  match s with
  | [] => false
  | c :: _ => isAsciiLower c

/-- `sentences.filter(s => /^[a-z]/.test(s.trim())).length`. -/
def lowerStartCount (text : Str) : Nat :=
  ((sentencesOf text).filter (fun s => startsLowerAscii (jsTrim s))).length

def longMsg (n : Nat) : Str :=
  "🟠 Found ".data ++ natToStr n ++
    " long sentences — consider splitting for clarity.".data

def lowerStartMsg : Str :=
  "🟠 Some sentences start with lowercase letters — check capitalization.".data

def grammarOkMsg : Str :=
  "✅ No major grammar or structure issues found.".data

def checkGrammarHeuristics (text : Str) : List Str :=
  let issues :=
    (if 5 < longSentenceCount text then [longMsg (longSentenceCount text)] else [])
      ++ (if 0 < lowerStartCount text then [lowerStartMsg] else [])
  if issues.isEmpty then [grammarOkMsg] else issues

/-! ## `checkKeywordMatch` (lines 73–77) and the `string-similarity`
dependency -/

/-- A JS `Map` from character bigrams to counts, as an insertion-ordered
association list. -/
abbrev BigramMap := List ((Char × Char) × Nat)

/-- `map.has(k) ? map.get(k) : 0`. -/
def bgGet (m : BigramMap) (k : Char × Char) : Nat :=
  match m.find? (fun p => decide (p.1 = k)) with
  | some p => p.2
  | none => 0

/-- `map.set(k, v)`: replace the entry for `k`, or append a new one. -/
def bgSet : BigramMap → Char × Char → Nat → BigramMap
  | [], k, v => [(k, v)]
  | p :: rest, k, v =>
    if p.1 = k then (k, v) :: rest else p :: bgSet rest k v

/-- The two-character windows `s.substring(i, i + 2)` of a string. -/
def bigrams : Str → List (Char × Char)
  | a :: b :: rest => (a, b) :: bigrams (b :: rest)
  | _ => []

/-- The body of the second `compareTwoStrings` loop: on a hit, count one
intersection and decrement the stored bigram count. -/
def diceStep (st : Nat × BigramMap) (bg : Char × Char) : Nat × BigramMap :=
  if 0 < bgGet st.2 bg then (st.1 + 1, bgSet st.2 bg (bgGet st.2 bg - 1))
  else st

/-- Modelled from the `string-similarity` package (v4.0), the one step of
the keyword check that is not code of this repository:
`compareTwoStrings(first, second)` — strip whitespace, return 1 on equal
strings, 0 when either is shorter than two characters, otherwise the
Sørensen–Dice coefficient over character-bigram multisets, with the
floating-point quotient idealised as an exact rational. -/
def compareTwoStrings (first second : Str) : ℚ :=
  let first := first.filter (fun c => !jsWhitespaceChar c)
  let second := second.filter (fun c => !jsWhitespaceChar c)
  if first = second then 1
  else if first.length < 2 ∨ second.length < 2 then 0
  else
    let firstBigrams := (bigrams first).foldl
      (fun m bg => bgSet m bg (bgGet m bg + 1)) []
    let inter := ((bigrams second).foldl diceStep (0, firstBigrams)).1
    (2 * (inter : ℚ)) / ((first.length : ℚ) + (second.length : ℚ) - 2)

/-- Total stored count of a bigram map. -/
def bgTotal (m : BigramMap) : Nat := (m.map (fun p => p.2)).sum

theorem bgSet_total (m : BigramMap) (k : Char × Char) (v : Nat) :
    bgTotal (bgSet m k v) + bgGet m k = bgTotal m + v := by
  induction m with
  | nil => simp [bgSet, bgTotal, bgGet, List.find?]
  | cons p rest ih =>
    by_cases h : p.1 = k
    · simp [bgSet, bgTotal, bgGet, List.find?, h]
      omega
    · simp only [bgSet, bgTotal, bgGet, List.find?, if_neg h, List.map_cons,
        List.sum_cons, decide_eq_true_eq] at *
      simp only [decide_eq_false h, Bool.false_eq_true] at *
      omega

theorem bgBuild_total (l : List (Char × Char)) (m0 : BigramMap) :
    bgTotal (l.foldl (fun m bg => bgSet m bg (bgGet m bg + 1)) m0)
      = bgTotal m0 + l.length := by
  induction l generalizing m0 with
  | nil => simp
  | cons bg rest ih =>
    rw [List.foldl_cons, ih]
    have := bgSet_total m0 bg (bgGet m0 bg + 1)
    simp only [List.length_cons]
    omega

theorem diceStep_invariant (st : Nat × BigramMap) (bg : Char × Char) :
    (diceStep st bg).1 + bgTotal (diceStep st bg).2 = st.1 + bgTotal st.2 := by
  unfold diceStep
  by_cases h : 0 < bgGet st.2 bg
  · have := bgSet_total st.2 bg (bgGet st.2 bg - 1)
    simp only [if_pos h]
    omega
  · simp [h]

theorem diceFold_invariant (l : List (Char × Char)) (st : Nat × BigramMap) :
    (l.foldl diceStep st).1 + bgTotal (l.foldl diceStep st).2
      = st.1 + bgTotal st.2 := by
  induction l generalizing st with
  | nil => simp
  | cons bg rest ih =>
    rw [List.foldl_cons, ih]
    exact diceStep_invariant st bg

theorem diceFold_le (l : List (Char × Char)) (st : Nat × BigramMap) :
    (l.foldl diceStep st).1 ≤ st.1 + l.length := by
  induction l generalizing st with
  | nil => simp
  | cons bg rest ih =>
    rw [List.foldl_cons]
    have h1 : (diceStep st bg).1 ≤ st.1 + 1 := by
      unfold diceStep
      by_cases h : 0 < bgGet st.2 bg <;> simp [h]
    have := ih (diceStep st bg)
    simp only [List.length_cons]
    omega

theorem bigrams_length (s : Str) : (bigrams s).length = s.length - 1 := by
  induction s with
  | nil => simp [bigrams]
  | cons a rest ih =>
    cases rest with
    | nil => simp [bigrams]
    | cons b rest2 =>
      simp only [bigrams, List.length_cons] at *
      omega

theorem compareTwoStrings_bounds (a b : Str) :
    0 ≤ compareTwoStrings a b ∧ compareTwoStrings a b ≤ 1 := by
  unfold compareTwoStrings
  set f := a.filter (fun c => !jsWhitespaceChar c) with hf
  set s := b.filter (fun c => !jsWhitespaceChar c) with hs
  by_cases heq : f = s
  · simp [heq]
  · simp only [if_neg heq]
    by_cases hshort : f.length < 2 ∨ s.length < 2
    · simp [hshort]
    · simp only [if_neg hshort]
      push_neg at hshort
      obtain ⟨hf2, hs2⟩ := hshort
      set m0 := (bigrams f).foldl (fun m bg => bgSet m bg (bgGet m bg + 1)) []
        with hm0
      set inter := ((bigrams s).foldl diceStep (0, m0)).1 with hinter
      have hmtot : bgTotal m0 = (bigrams f).length := by
        rw [hm0, bgBuild_total]
        simp [bgTotal]
      have hle_f : inter ≤ (bigrams f).length := by
        have hinv := diceFold_invariant (bigrams s) (0, m0)
        have hpair : bgTotal ((0 : Nat), m0).2 = bgTotal m0 := rfl
        rw [hinter]
        omega
      have hle_s : inter ≤ (bigrams s).length := by
        have := diceFold_le (bigrams s) (0, m0)
        rw [hinter]
        omega
      have hbf := bigrams_length f
      have hbs := bigrams_length s
      have hnat : 2 * inter + 2 ≤ f.length + s.length := by omega
      have hD : (0 : ℚ) < (f.length : ℚ) + (s.length : ℚ) - 2 := by
        have : (2 : ℚ) ≤ (f.length : ℚ) := by exact_mod_cast hf2
        have : (2 : ℚ) ≤ (s.length : ℚ) := by exact_mod_cast hs2
        linarith
      constructor
      · apply div_nonneg _ hD.le
        positivity
      · rw [div_le_one hD]
        have : ((2 * inter + 2 : ℕ) : ℚ) ≤ ((f.length + s.length : ℕ) : ℚ) := by
          exact_mod_cast hnat
        push_cast at this
        linarith

/-- Floor of a nonnegative rational, as a natural number (a rational's
denominator is positive, so flooring division of the numerator works). -/
def ratFloorNat (q : ℚ) : Nat := (Int.fdiv q.num (q.den : Int)).toNat

/-- JS `Number.prototype.toFixed(2)` on the engine's (nonnegative)
percentage values, idealised over the exact rational: round to the nearest
hundredth (half up) and print with exactly two decimals. -/
def toFixed2 (q : ℚ) : Str :=
  let n := ratFloorNat (q * 100 + 1 / 2)
  natToStr (n / 100) ++ ['.'] ++ (if n % 100 < 10 then ['0'] else []) ++
    natToStr (n % 100)

def kwMsgHead : Str := "🟢 Keyword match score: ".data

def checkKeywordMatch (text : Str) (jobDesc : Str) : List Str :=
  if jobDesc.isEmpty then []
  else
    let score := compareTwoStrings (text.map asciiLower) (jobDesc.map asciiLower)
    [kwMsgHead ++ toFixed2 (score * 100) ++ ['%']]

/-- C5: with an empty (or absent) job description the keyword check
produces nothing; with a non-empty one it produces exactly one 🟢 item
carrying the similarity percentage, a value between 0 and 100. -/
theorem checkKeywordMatch_spec (text jobDesc : Str) :
    checkKeywordMatch text [] = []
      ∧ (jobDesc ≠ [] →
          checkKeywordMatch text jobDesc
              = [kwMsgHead ++
                  toFixed2
                    (compareTwoStrings (text.map asciiLower)
                        (jobDesc.map asciiLower) * 100) ++ ['%']]
            ∧ 0 ≤ compareTwoStrings (text.map asciiLower)
                    (jobDesc.map asciiLower) * 100
            ∧ compareTwoStrings (text.map asciiLower)
                    (jobDesc.map asciiLower) * 100 ≤ 100) := by
  constructor
  · simp [checkKeywordMatch]
  · intro hne
    have hb := compareTwoStrings_bounds (text.map asciiLower)
      (jobDesc.map asciiLower)
    refine ⟨?_, by linarith [hb.1], by linarith [hb.2]⟩
    have : jobDesc.isEmpty = false := by
      cases jobDesc with
      | nil => exact absurd rfl hne
      | cons c cs => rfl
    simp [checkKeywordMatch, this]

/-- Witness for C5 at a concrete input: text `"ab"` against job
description `"ab"` — the empty job description gives nothing, the
non-empty one exactly one item, with the percentage between 0 and 100. -/
theorem checkKeywordMatch_spec_witness :
    checkKeywordMatch "ab".data [] = []
      ∧ (checkKeywordMatch "ab".data "ab".data).length = 1
      ∧ (0 : ℚ) ≤ compareTwoStrings ("ab".data.map asciiLower)
          ("ab".data.map asciiLower) * 100
      ∧ compareTwoStrings ("ab".data.map asciiLower)
          ("ab".data.map asciiLower) * 100 ≤ 100 := by
  have h := checkKeywordMatch_spec "ab".data "ab".data
  have h2 := h.2 (by decide)
  refine ⟨h.1, ?_, h2.2.1, h2.2.2⟩
  rw [h2.1]
  rfl

/-! ## `checkFormattingConsistency` (lines 98–148) -/

/-- One `textContent.items` entry.  pdf.js gives each text run a
`fontName`, a six-entry `transform` matrix — the code uses the rounded
`transform[0]` (the scale, i.e. font size) and the rounded `transform[4]`
(the horizontal translation) — and its text `str`; the two rounded
integers are carried directly, and a missing field is `none`. -/
structure TextItem where
  fontName : Option Str
  transform : Option (Int × Int)
  str : Str

/-- A parsed document: its pages in order (`getPage(i)` for
`i = 1..numPages`), each a list of text items. -/
abbrev Doc := List (List TextItem)

/-- JS `Set.prototype.add`: append if not already present (insertion
order). -/
def setAdd {α : Type} [DecidableEq α] (s : List α) (a : α) : List α :=
  if a ∈ s then s else s ++ [a]

/-- The page loop of lines 108–120: accumulate the font-name set, the
font-size set and the left-position array over all items of all pages.
`if (item.fontName)` skips an absent *or empty* name (JS truthiness);
`if (item.transform)` skips only an absent matrix. -/
def collectLayout (pages : Doc) : List Str × List Int × List Int :=
  pages.foldl
    (fun acc page =>
      page.foldl
        (fun acc item =>
          let fonts := match item.fontName with
            | some f => if !f.isEmpty then setAdd acc.1 f else acc.1
            | none => acc.1
          match item.transform with
          | some t => (fonts, setAdd acc.2.1 t.1, acc.2.2 ++ [t.2])
          | none => (fonts, acc.2.1, acc.2.2))
        acc)
    ([], [], [])

def collectFonts (pages : Doc) : List Str := (collectLayout pages).1

def collectSizes (pages : Doc) : List Int := (collectLayout pages).2.1

def collectLefts (pages : Doc) : List Int := (collectLayout pages).2.2

/-- The JS number line as the engine meets it: `Math.max(...[])` is
`-Infinity`, `Math.min(...[])` is `Infinity`, everything else here is an
integer. -/
inductive JsNum where
  | negInf : JsNum
  | posInf : JsNum
  | nan : JsNum
  | int : Int → JsNum
deriving DecidableEq

/-- `Math.max(...list)`. -/
def jsMaxList : List Int → JsNum
  | [] => JsNum.negInf
  | x :: xs => JsNum.int (xs.foldl max x)

/-- `Math.min(...list)`. -/
def jsMinList : List Int → JsNum
  | [] => JsNum.posInf
  | x :: xs => JsNum.int (xs.foldl min x)

/-- IEEE subtraction on the values above
(`-Infinity - Infinity = -Infinity`). -/
def jsSub : JsNum → JsNum → JsNum
  | JsNum.int a, JsNum.int b => JsNum.int (a - b)
  | JsNum.negInf, JsNum.negInf => JsNum.nan
  | JsNum.negInf, _ => JsNum.negInf
  | JsNum.posInf, JsNum.posInf => JsNum.nan
  | JsNum.posInf, _ => JsNum.posInf
  | JsNum.nan, _ => JsNum.nan
  | JsNum.int _, JsNum.negInf => JsNum.posInf
  | JsNum.int _, JsNum.posInf => JsNum.negInf
  | JsNum.int _, JsNum.nan => JsNum.nan

/-- IEEE `x > n` (any comparison with NaN is false). -/
def jsGtNum : JsNum → Int → Bool
  | JsNum.negInf, _ => false
  | JsNum.posInf, _ => true
  | JsNum.nan, _ => false
  | JsNum.int a, n => decide (n < a)

def fontMsg : Str :=
  "⚠️ Multiple fonts detected — use one consistent font (e.g., Calibri, Arial).".data

def sizeMsg : Str :=
  "⚠️ Too many font sizes — use 10–12 pt for text, 14–16 pt for headings.".data

def alignMsg : Str :=
  "⚠️ Inconsistent text alignment — keep left margins uniform.".data

def bulletStyleMsg : Str :=
  "⚠️ Different bullet styles used — stick to one format.".data

def layoutErrMsg : Str :=
  "❌ Could not analyze formatting (maybe an image-based PDF).".data

def layoutOkMsg : Str :=
  "✅ Formatting appears consistent across sections.".data

/-- The three ⚠️ flag pushes of lines 122–130, in push order. -/
def layoutFlags (pages : Doc) : List Str :=
  (if 2 < (collectFonts pages).length then [fontMsg] else [])
    ++ (if 4 < (collectSizes pages).length then [sizeMsg] else [])
    ++ (if jsGtNum (jsSub (jsMaxList (collectLefts pages))
            (jsMinList (collectLefts pages))) 30
        then [alignMsg] else [])

/-- A pdf.js `getTextContent()` call *without* `await`: a `Promise` object
wrapping the eventual text content. -/
inductive JsPromise where
  | promise : List TextItem → JsPromise

/-- Property access `promise.items`: a `Promise` object has no `items`
property, so the access yields `undefined`. -/
def promiseItems : JsPromise → Option (List TextItem)
  | JsPromise.promise _ => none

/-- `[...new Set(bullets)]`. -/
def dedupChars (l : List Char) : List Char := l.foldl setAdd []

/-- The page-1 bullet scan of lines 134–139 on a given page-1 text:
`text.match(/^[-•▪*]/gm)` collects each line-leading bullet glyph; a
non-null, non-empty match list with more than one distinct glyph flags an
issue. -/
def intendedBulletIssues (text : Str) : List Str :=
  let bullets :=
    ((splitOnP (· == '\n') text).filterMap List.head?).filter isBulletChar
  if 0 < bullets.length ∧ 1 < (dedupChars bullets).length
  then [bulletStyleMsg] else []

/-- Lines 132–139.  `page1.getTextContent()` is **not** awaited on line
133, so it evaluates to a `Promise` object, `.items` on it is `undefined`,
and `undefined.map` throws a `TypeError` — for every document
(`pdf.getPage(1)` likewise rejects when the document has no pages).  The
source's intended bullet scan is kept in the success branch, which is
unreachable. -/
def page1Bullets : Doc → Except Unit (List Str)
  | [] => Except.error ()
  | page1 :: _ =>
    match promiseItems (JsPromise.promise page1) with
    | none => Except.error ()
    | some items =>
      Except.ok (intendedBulletIssues
        (List.intercalate ['\n'] (items.map (fun i => i.str))))

/-- `checkFormattingConsistency(filePath)` (lines 98–148).  The input
models the outcome of reading the file, opening the document and walking
its pages (lines 101–120): every failure point there precedes any
`issues.push`, so a failed extraction reaches the `catch` with no issues
collected.  After a successful walk the three flag checks run, then the
page-1 bullet step; if anything threw, the `catch` appends the single ❌
item to whatever was already pushed.  An empty issue list becomes the
single ✅ item. -/
def checkFormattingConsistency (doc : Except Unit Doc) : List Str :=
  let issues :=
    match doc with
    | Except.error _ => [layoutErrMsg]
    | Except.ok pages =>
      match page1Bullets pages with
      | Except.error _ => layoutFlags pages ++ [layoutErrMsg]
      | Except.ok bulletFlags => layoutFlags pages ++ bulletFlags
  if issues.isEmpty then [layoutOkMsg] else issues

theorem page1Bullets_error (pages : Doc) :
    page1Bullets pages = Except.error () := by
  cases pages <;> rfl

theorem append_singleton_ne_nil {α : Type} (l : List α) (x : α) :
    (l ++ [x]).isEmpty = false := by
  cases l <;> rfl

theorem checkFormattingConsistency_ok_eq (pages : Doc) :
    checkFormattingConsistency (Except.ok pages)
      = layoutFlags pages ++ [layoutErrMsg] := by
  cases pages with
  | nil => rfl
  | cons page rest =>
    show (if (layoutFlags (page :: rest) ++ [layoutErrMsg]).isEmpty
        then [layoutOkMsg] else layoutFlags (page :: rest) ++ [layoutErrMsg])
      = layoutFlags (page :: rest) ++ [layoutErrMsg]
    rw [append_singleton_ne_nil]
    simp

/-- C2: on an input whose layout extraction fails, the formatting check
returns exactly the single ❌ item — one feedback item, no ⚠️ item, no
exception. -/
theorem checkFormattingConsistency_failure :
    checkFormattingConsistency (Except.error ()) = [layoutErrMsg]
      ∧ (checkFormattingConsistency (Except.error ())).length = 1
      ∧ (checkFormattingConsistency (Except.error ())).countP
          (fun s => jsStartsWith s ['⚠', '\uFE0F']) = 0 := by
  decide

/-- C6: with no collected left offsets, the spread computation of line 128
is still total — `Math.max(...[]) - Math.min(...[])` is `-Infinity`,
which is not `> 30` — and no alignment flag is emitted. -/
theorem emptyLefts_no_alignment_flag (pages : Doc)
    (h : collectLefts pages = []) :
    jsSub (jsMaxList (collectLefts pages)) (jsMinList (collectLefts pages))
        = JsNum.negInf
      ∧ jsGtNum (jsSub (jsMaxList (collectLefts pages))
          (jsMinList (collectLefts pages))) 30 = false
      ∧ alignMsg ∉ checkFormattingConsistency (Except.ok pages) := by
  rw [h]
  refine ⟨rfl, rfl, ?_⟩
  rw [checkFormattingConsistency_ok_eq]
  unfold layoutFlags
  rw [h]
  split <;> split <;> decide

/-- Witness for C6: a one-page document with no text items collects no
left offsets, and its formatting feedback carries no alignment flag. -/
theorem emptyLefts_no_alignment_flag_witness :
    collectLefts [[]] = []
      ∧ alignMsg ∉ checkFormattingConsistency (Except.ok [[]]) :=
  ⟨rfl, (emptyLefts_no_alignment_flag [[]] rfl).2.2⟩

/-- A concrete clean one-page document: one font, one size, zero
left-offset spread, a single bullet glyph. -/
def cleanPage : List TextItem :=
  [⟨some "F1".data, some (12, 72), "- alpha".data⟩,
   ⟨some "F1".data, some (12, 72), "- beta".data⟩]

def cleanDoc : Doc := [cleanPage]

/-- C3 shows a code bug: `cleanDoc` satisfies every hypothesis of the
claim (at most 2 fonts, at most 4 sizes, spread ≤ 30, one bullet glyph),
yet the check produces the single ❌ item and never the ✅ item — the
un-awaited `getTextContent()` on line 133 makes the page-1 bullet step
throw on every document, so the success branch is dead code. -/
theorem cleanDoc_no_success_item :
    (collectFonts cleanDoc).length ≤ 2
      ∧ (collectSizes cleanDoc).length ≤ 4
      ∧ jsGtNum (jsSub (jsMaxList (collectLefts cleanDoc))
          (jsMinList (collectLefts cleanDoc))) 30 = false
      ∧ intendedBulletIssues
          (List.intercalate ['\n'] (cleanPage.map (fun i => i.str))) = []
      ∧ checkFormattingConsistency (Except.ok cleanDoc) = [layoutErrMsg]
      ∧ layoutOkMsg ∉ checkFormattingConsistency (Except.ok cleanDoc) := by
  decide

/-! ## Orchestrator (`parsePDF`, lines 9–13, and `reviewResume`,
lines 168–197) -/

/-- The result of `pdf-parse` on a readable file: its `text` field may be
absent. -/
structure PdfData where
  text : Option Str

/-- `parsePDF(filePath)`: `fs.readFileSync` or `pdf(buffer)` can throw or
reject (the `Except.error` input, propagated); otherwise the result is
`data.text || ""`. -/
def parsePDF (file : Except Unit PdfData) : Except Unit Str :=
  match file with
  | Except.error e => Except.error e
  | Except.ok d => Except.ok (d.text.getD [])

/-- The `{score, results}` object returned to the caller. -/
structure ReviewResult where
  score : Int
  results : List Str

/-- `reviewResume(filePath, jobDesc = "")`, console output dropped.  The
file is consumed twice — `parsePDF` for the text and
`checkFormattingConsistency` for the layout — so both outcomes are inputs;
`titleCase` is the external `title-case` package, abstracted.  On empty
extracted text the source does `return console.log(...)`, i.e. returns
`undefined` (`none`) before any check runs. -/
def reviewResume (titleCase : Str → Str) (file : Except Unit PdfData)
    (jobDesc : Str) (layout : Except Unit Doc) :
    Except Unit (Option ReviewResult) :=
  match parsePDF file with
  | Except.error e => Except.error e
  | Except.ok text =>
    if text.isEmpty then Except.ok none
    else
      let results :=
        checkBulletPoints text ++ checkProjects text
          ++ checkContactFormatting text ++ checkHeadings titleCase text
          ++ checkAchievements text ++ checkFileCompatibility text
          ++ checkKeywordMatch text jobDesc ++ checkGrammarHeuristics text
          ++ checkFormattingConsistency layout
      Except.ok (some { score := calculateScore results, results := results })

theorem reviewResume_ok_empty (titleCase : Str → Str) (file : PdfData)
    (jobDesc : Str) (layout : Except Unit Doc)
    (h : file.text.getD [] = []) :
    reviewResume titleCase (Except.ok file) jobDesc layout
      = Except.ok none := by
  obtain ⟨t⟩ := file
  cases t with
  | none => rfl
  | some s =>
    simp only [Option.getD] at h
    subst h
    rfl

/-- C4: an empty or absent extracted text makes `reviewResume` return the
`undefined` signal (`none`) before any check runs — no score, no
`ReviewResult`, and the outcome differs from every actual result, in
particular from a zero-score one. -/
theorem reviewResume_empty_text (titleCase : Str → Str) (file : PdfData)
    (jobDesc : Str) (layout : Except Unit Doc)
    (h : file.text.getD [] = []) :
    reviewResume titleCase (Except.ok file) jobDesc layout = Except.ok none
      ∧ ∀ r : ReviewResult,
          reviewResume titleCase (Except.ok file) jobDesc layout
            ≠ Except.ok (some r) := by
  have hmain := reviewResume_ok_empty titleCase file jobDesc layout h
  refine ⟨hmain, fun r hcontra => ?_⟩
  rw [hmain] at hcontra
  simp at hcontra

/-- Witness for C4: a readable PDF whose `text` field is absent
short-circuits to the `undefined` signal. -/
theorem reviewResume_empty_text_witness :
    reviewResume (fun s => s) (Except.ok ⟨none⟩) [] (Except.error ())
      = Except.ok none :=
  (reviewResume_empty_text (fun s => s) ⟨none⟩ [] (Except.error ()) rfl).1

/-- C8: a file-read failure makes `parsePDF` fail and the failure
propagates out of `reviewResume` unchanged, while a readable PDF with no
text layer yields the empty string and the distinct `.ok none` outcome. -/
theorem reviewResume_read_failure (titleCase : Str → Str) (jobDesc : Str)
    (layout : Except Unit Doc) :
    parsePDF (Except.error ()) = Except.error ()
      ∧ reviewResume titleCase (Except.error ()) jobDesc layout
          = Except.error ()
      ∧ (∀ d : PdfData, d.text.getD [] = [] →
          reviewResume titleCase (Except.ok d) jobDesc layout
            = Except.ok none)
      ∧ (Except.error () : Except Unit (Option ReviewResult))
          ≠ Except.ok none := by
  refine ⟨rfl, rfl, ?_, by simp⟩
  intro d hd
  exact reviewResume_ok_empty titleCase d jobDesc layout hd

/-- Witness for C8: the read failure propagates, and an empty text layer
instead returns the distinct `.ok none`. -/
theorem reviewResume_read_failure_witness :
    reviewResume (fun s => s) (Except.error ()) [] (Except.error ())
        = Except.error ()
      ∧ reviewResume (fun s => s) (Except.ok ⟨some []⟩) [] (Except.error ())
        = Except.ok none := by
  have h := reviewResume_read_failure (fun s => s) [] (Except.error ())
  exact ⟨h.2.1, h.2.2.1 ⟨some []⟩ rfl⟩

/-! ## Claim C9: Projects presence and quantified achievements -/

def projLine : Str := "This project improved output by 20%".data

/-- C9: the Projects check contributes exactly one 🟡 item iff the text
has no case-insensitive `project` substring, and the Achievements check
contributes nothing for the line `"This project improved output by 20%"`,
which matches its keyword pattern but carries a percentage. -/
theorem checkProjects_spec (text : Str) :
    (containsSeq "project".data (text.map asciiLower) = false →
        checkProjects text = [projMsg] ∧ jsStartsWith projMsg ['🟡'] = true)
      ∧ (containsSeq "project".data (text.map asciiLower) = true →
        checkProjects text = [])
      ∧ (testExperienceWords projLine = true
          ∧ hasQuantifier projLine = true
          ∧ checkAchievements projLine = []) := by
  refine ⟨?_, ?_, by decide⟩
  · intro h
    unfold checkProjects testProject
    rw [h]
    exact ⟨rfl, by decide⟩
  · intro h
    unfold checkProjects testProject
    rw [h]
    rfl

/-- Witness for C9 at concrete inputs. -/
theorem checkProjects_spec_witness :
    checkProjects "resume text".data = [projMsg]
      ∧ checkProjects "My Project list".data = []
      ∧ checkAchievements projLine = [] := by
  refine ⟨((checkProjects_spec "resume text".data).1 (by decide)).1,
    (checkProjects_spec "My Project list".data).2.1 (by decide),
    (checkProjects_spec []).2.2.2.2⟩

/-! ## Claim C10: contact-information check -/

/-- C10: the contact check returns at most one item; with both the email
and the phone pattern absent it is the single combined 🔴 item, and with
both present it is nothing. -/
theorem checkContactFormatting_spec (text : Str) :
    (checkContactFormatting text).length ≤ 1
      ∧ (emailTest text = false ∧ phoneTest text = false →
          checkContactFormatting text = [contactMsg])
      ∧ (emailTest text = true ∧ phoneTest text = true →
          checkContactFormatting text = []) := by
  unfold checkContactFormatting
  refine ⟨?_, ?_, ?_⟩
  · cases h : (!emailTest text || !phoneTest text) <;> simp [h]
  · rintro ⟨h1, h2⟩
    simp [h1, h2]
  · rintro ⟨h1, h2⟩
    simp [h1, h2]

/-- Witness for C10: a text with both patterns gets no item; a text with
neither gets the one combined item. -/
theorem checkContactFormatting_spec_witness :
    checkContactFormatting "a@b.cd 0123456789".data = []
      ∧ checkContactFormatting "hello".data = [contactMsg] := by
  refine ⟨(checkContactFormatting_spec "a@b.cd 0123456789".data).2.2
      ⟨by decide, by decide⟩,
    (checkContactFormatting_spec "hello".data).2.1 ⟨by decide, by decide⟩⟩

/-! ## Claim C7: the grammar heuristic -/

/-- The spec's notion of the "whitespace-delimited words" of a sentence:
its maximal nonempty runs of non-whitespace characters.  (Stated from the
spec's words, to compare with the code's `s.split(" ").length`.) -/
def specWordCount (s : Str) : Nat :=
  ((splitOnP jsWhitespaceChar s).filter (fun w => !w.isEmpty)).length

/-- The spec-side long-sentence count: sentences with more than 25
whitespace-delimited words. -/
def specLongSentenceCount (text : Str) : Nat :=
  ((sentencesOf text).filter (fun s => decide (25 < specWordCount s))).length

/-- A sentence of 26 newline-separated single-letter words. -/
def gapSentence : Str := 'A' :: ((List.replicate 25 ['\n', 'b']).flatten ++ ['.'])

/-- Six such sentences. -/
def gapText : Str := (List.replicate 6 gapSentence).flatten

/-- C7 counterexample: in `gapText` more than 5 sentences exceed 25
whitespace-delimited words, yet the grammar heuristic emits no 🟠 item at
all (it emits the ✅ item): the code splits each sentence on the single
space character only, so newline-separated words never count. -/
theorem grammar_spec_words_counterexample :
    5 < specLongSentenceCount gapText
      ∧ (checkGrammarHeuristics gapText).countP
          (fun s => jsStartsWith s ['🟠']) = 0
      ∧ checkGrammarHeuristics gapText = [grammarOkMsg] := by
  decide

theorem jsStartsWith_nil_pat (s : Str) : jsStartsWith s [] = true := by
  cases s <;> rfl

theorem longMsg_cons (n : Nat) :
    longMsg n = '🟠' :: (" Found ".data ++ (natToStr n ++
      " long sentences — consider splitting for clarity.".data)) := rfl

theorem longMsg_orange (n : Nat) :
    jsStartsWith (longMsg n) ['🟠'] = true := by
  rw [longMsg_cons]
  simp [jsStartsWith, jsStartsWith_nil_pat]

theorem longMsg_ne_ok (n : Nat) :
    (decide (longMsg n = grammarOkMsg)) = false := by
  apply decide_eq_false
  rw [longMsg_cons]
  intro h
  have hhead : ('🟠' : Char) = '✅' := by
    have h2 := congrArg List.head? h
    have hg : List.head? grammarOkMsg = some '✅' := rfl
    rw [hg] at h2
    exact Option.some.inj h2
  exact absurd hhead (by decide)

theorem lowerStartMsg_orange : jsStartsWith lowerStartMsg ['🟠'] = true := by
  decide

theorem grammarOkMsg_not_orange :
    jsStartsWith grammarOkMsg ['🟠'] = false := by decide

theorem lowerStartMsg_ne_ok :
    (decide (lowerStartMsg = grammarOkMsg)) = false := by decide

theorem grammarOkMsg_eq_self :
    (decide (grammarOkMsg = grammarOkMsg)) = true := by decide

/-- A sentence of 30 space-separated words, properly capitalized. -/
def spacedSentence : Str := 'A' :: ((List.replicate 29 [' ', 'a']).flatten ++ ['.'])

def sixLongText : Str := (List.replicate 6 spacedSentence).flatten

def twoShortText : Str := "Hi there. All good.".data

/-- C7 (amended): the grammar heuristic flags one 🟠 item iff more than 5
sentences have more than 25 *single-space-separated segments*
(`s.split(" ").length > 25`, empty segments included — not whitespace-
delimited words), flags one 🟠 item iff some sentence's trimmed form
starts with an ASCII lowercase letter, and emits exactly one ✅ item iff
neither triggers; six 30-word space-separated capitalized sentences give
exactly one 🟠 item and no ✅ item, and two short capitalized sentences
give exactly one ✅ item and no 🟠 item. -/
theorem checkGrammarHeuristics_spec (text : Str) :
    (checkGrammarHeuristics text).countP (fun s => jsStartsWith s ['🟠'])
        = (if 5 < longSentenceCount text then 1 else 0)
          + (if 0 < lowerStartCount text then 1 else 0)
      ∧ (checkGrammarHeuristics text).countP
          (fun s => decide (s = grammarOkMsg))
        = (if 5 < longSentenceCount text ∨ 0 < lowerStartCount text
           then 0 else 1)
      ∧ checkGrammarHeuristics sixLongText = [longMsg 6]
      ∧ checkGrammarHeuristics twoShortText = [grammarOkMsg] := by
  refine ⟨?_, ?_, by decide, by decide⟩
  · unfold checkGrammarHeuristics
    by_cases hL : 5 < longSentenceCount text <;>
      by_cases hC : 0 < lowerStartCount text <;>
        simp [hL, hC, longMsg_orange, lowerStartMsg_orange,
          grammarOkMsg_not_orange]
  · unfold checkGrammarHeuristics
    by_cases hL : 5 < longSentenceCount text <;>
      by_cases hC : 0 < lowerStartCount text <;>
        simp [hL, hC, longMsg_ne_ok, lowerStartMsg_ne_ok,
          grammarOkMsg_eq_self]
